import Mathlib

/-!
Verification development for the `zk` command line tool (`main.go`).

We shallowly embed the move/rename subsystem: root resolution (`ZkRoot`),
project-relative path computation, the anchor-href rewriting pass over the
project tree, and the `mv` command orchestration.  Paths are modelled as
`String`s over their `List Char` data (the program only manipulates ASCII
paths, where Go's byte indexing coincides with character indexing), the
filesystem as a decidable existence predicate, and HTML documents as the
list of their anchor elements' `href` attributes (the only content the
program reads or mutates).  The POSIX branch of the code is modelled
(`runtime.GOOS != "windows"`).
-/

namespace Zk

/-- Constant `ZK_ROOT_FILENAME` from `main.go` line 24. -/
def ZK_ROOT_FILENAME : String := ".zk-root"

/-- Characters of a string taken up to index `n`; models Go slicing `s[:n]`
for ASCII strings. -/
def strTake (s : String) (n : Nat) : String := ⟨s.data.take n⟩

/-- Characters of a string from index `n` on; models Go slicing `s[n:]`
for ASCII strings (`main.go` lines 136-137). -/
def strDrop (s : String) (n : Nat) : String := ⟨s.data.drop n⟩

/-- Models Go `strings.HasSuffix`. -/
def strHasSuffix (s suf : String) : Bool := suf.data.isSuffixOf s.data

/-- Models Go `strings.TrimSuffix`: drop `suf` from the end of `s` when
present, otherwise return `s` unchanged (`main.go` line 138). -/
def strTrimSuffix (s suf : String) : String :=
  if strHasSuffix s suf then strTake s (s.length - suf.length) else s

/-- Index of the last `/` in a character list; models Go
`strings.LastIndex(s, string(os.PathSeparator))` on POSIX
(`main.go` line 57), returning `none` for Go's `-1`. -/
def lastSlashIdx : List Char → Option Nat
  | [] => none
  | c :: rest =>
    match lastSlashIdx rest with
    | some i => some (i + 1)
    | none => if c = '/' then some 0 else none

/-- Split a character list on `/`, keeping empty segments. -/
def splitSlash : List Char → List (List Char)
  | [] => [[]]
  | c :: rest =>
    let r := splitSlash rest
    if c = '/' then [] :: r
    else
      match r with
      | [] => [[c]]
      | seg :: rest2 => (c :: seg) :: rest2

/-- Segment-stack processing of Go `path/filepath.Clean`: drop empty and
`.` segments, resolve `..` against the segments gathered so far (a `..`
at the top of a rooted path vanishes; in a relative path it is kept).
The accumulator holds the kept segments in reverse order. -/
def cleanSegsAux (rooted : Bool) (stack : List (List Char)) :
    List (List Char) → List (List Char)
  | [] => stack
  | seg :: rest =>
    if seg = [] ∨ seg = ['.'] then cleanSegsAux rooted stack rest
    else if seg = ['.', '.'] then
      match stack with
      | [] =>
        if rooted then cleanSegsAux rooted [] rest
        else cleanSegsAux rooted [seg] rest
      | top :: s2 =>
        if top = ['.', '.'] then cleanSegsAux rooted (seg :: stack) rest
        else cleanSegsAux rooted s2 rest
    else cleanSegsAux rooted (seg :: stack) rest

/-- Join segments with `/` separators. -/
def joinSegs : List (List Char) → List Char
  | [] => []
  | [s] => s
  | s :: rest => s ++ '/' :: joinSegs rest

/-- Models Go `path/filepath.Clean` on POSIX via the standard
segment-normalisation reading of its algorithm. -/
def goClean (s : String) : String :=
  if s = "" then "."
  else
    let rooted := s.data.head? = some '/'
    let segs := cleanSegsAux rooted [] (splitSlash s.data)
    let body := joinSegs segs.reverse
    if rooted then ⟨'/' :: body⟩
    else if body = [] then "." else ⟨body⟩

/-- Models Go `path/filepath.Join` for two elements on POSIX: empty
elements are skipped and the concatenation is cleaned; all-empty input
yields the empty string (`main.go` lines 50, 134-135). -/
def filepathJoin (a b : String) : String :=
  if a = "" then (if b = "" then "" else goClean b)
  else if b = "" then goClean a
  else goClean (a ++ "/" ++ b)

/-- Models Go `path/filepath.Base` on POSIX: strip trailing slashes, keep
the part after the last slash, with `.` for the empty path and `/` for
all-slash paths (`main.go` line 159). -/
def goBase (path : String) : String :=
  if path = "" then "."
  else
    let l := (path.data.reverse.dropWhile (fun c => c = '/')).reverse
    let l2 := (l.reverse.takeWhile (fun c => c ≠ '/')).reverse
    if l2 = [] then "/" else ⟨l2⟩

/-- Models Go `path/filepath.Dir` on POSIX: everything up to and including
the final slash, cleaned (`main.go` line 159). -/
def goDir (path : String) : String :=
  goClean (strTake path (match lastSlashIdx path.data with
    | none => 0
    | some i => i + 1))

/-- Function `IsRootDir` from `main.go` lines 38-43, POSIX branch
(`runtime.GOOS != "windows"`). -/
def IsRootDir (path : String) : Bool := path = "/"

/-- Function `ZkRoot` from `main.go` lines 49-66: walk upward from `desiredPath`
looking for the marker file.  The filesystem is abstracted as the
existence predicate `fs` consulted with exactly the strings the Go code
passes to `os.Stat` (a stat succeeding, i.e. `fs` returning `true`,
corresponds to `errors.Is(err, os.ErrNotExist)` being false). -/
def ZkRoot (fs : String → Bool) (desiredPath : String) :
    Except String String :=
  if fs (filepathJoin desiredPath ZK_ROOT_FILENAME) = false then
    if IsRootDir desiredPath then .error ".zk-root cannot be found"
    else
      match h : lastSlashIdx desiredPath.data with
      | none => .error ".zk-root cannot be found"
      | some i => ZkRoot fs (strTake desiredPath i)
  else .ok desiredPath
termination_by desiredPath.length
decreasing_by
  have key : ∀ (l : List Char) (j : Nat), lastSlashIdx l = some j →
      j < l.length := by
    intro l
    induction l with
    | nil => intro j hj; simp [lastSlashIdx] at hj
    | cons c rest ih =>
      intro j hj
      simp only [lastSlashIdx] at hj
      cases hr : lastSlashIdx rest with
      | some k =>
        rw [hr] at hj
        cases hj
        have := ih k hr
        simp
        omega
      | none =>
        rw [hr] at hj
        by_cases hc : c = '/'
        · simp [hc] at hj
          simp [List.length_cons]
          omega
        · simp [hc] at hj
  have hlt := key _ _ h
  have h2 : (strTake desiredPath i).length = min i desiredPath.data.length := by
    show (desiredPath.data.take i).length = _
    simp [List.length_take]
  have h3 : desiredPath.length = desiredPath.data.length := rfl
  omega

/-- The project-relative path computation from `main.go` lines 136-137:
raw slicing `absPath[len(root):]`, with no check that `absPath` lies
under `root`.  (In Go, an `absPath` shorter than `root` makes the slice
expression panic; `List.drop` instead returns the empty suffix.) -/
def zkRelative (root absPath : String) : String := strDrop absPath root.length

/-- An HTML document on disk, abstracted to what the `mv` walk reads and
writes: its path (`dirEntry.Name()` / `path`, which agree on the `.html`
suffix test), the `href` attributes of its anchor elements in document
order (`none` when the anchor has no `href` attribute, the `exists`
check at `main.go` line 158), and flags for the failure modes of the
per-file I/O: `os.Open` (line 147), `goquery.NewDocumentFromReader`
(line 152), `html.Html()` (line 168) and `ioutil.WriteFile` (line 173,
whose error the code discards: the write fails but processing
continues). -/
structure File where
  name : String
  openErr : Bool
  parseErr : Bool
  serializeErr : Bool
  writeErr : Bool
  anchors : List (Option String)
deriving DecidableEq, Repr

/-- The per-anchor match condition from `main.go` lines 158-161: the
href equals the relative source path exactly, or the source is a
directory index and the href equals its directory, or the source ends
in `.html` and the href equals it with the extension cut off. -/
def anchorMatches (zkRelativeFromPath : String) (a : Option String) : Bool :=
  match a with
  | none => false
  | some href =>
    let hrefMatchesDirectoryIndex :=
      goBase zkRelativeFromPath == "index.html" &&
        href == goDir zkRelativeFromPath
    let hrefMatchesPageWithoutExtension :=
      strHasSuffix zkRelativeFromPath ".html" &&
        href == strTake zkRelativeFromPath (zkRelativeFromPath.length - 5)
    href == zkRelativeFromPath || hrefMatchesDirectoryIndex ||
      hrefMatchesPageWithoutExtension

/-- The `html.Find("a").Each` loop from `main.go` lines 156-165: every
matching anchor's href is set to the one string `zkRelativeToPath`, and
`foundReference` records whether any anchor matched. -/
def rewriteAnchors (zkRelativeFromPath zkRelativeToPath : String) :
    List (Option String) → List (Option String) × Bool
  | [] => ([], false)
  | a :: rest =>
    let r := rewriteAnchors zkRelativeFromPath zkRelativeToPath rest
    if anchorMatches zkRelativeFromPath a then (some zkRelativeToPath :: r.1, true)
    else (a :: r.1, r.2)

/-- Outcome of the walk callback on one file: the state of the file
afterwards, whether `ioutil.WriteFile` was invoked, and the error value
the callback returned to `filepath.WalkDir` (`none` for `nil`). -/
structure ProcResult where
  file : File
  wrote : Bool
  walkErr : Option String
deriving DecidableEq, Repr

/-- The body of the `filepath.WalkDir` callback from `main.go` lines
144-177 applied to one visited file: skip names not ending in `.html`;
propagate open and parse errors as the callback's return value; rewrite
the anchors; if a reference was found, serialize (propagating its error)
and write the file back, discarding the write's error (a failed write
leaves the old content in place). -/
def processFile (zkRelativeFromPath zkRelativeToPath : String) (f : File) :
    ProcResult :=
  if strHasSuffix f.name ".html" then
    if f.openErr then ⟨f, false, some "open error"⟩
    else if f.parseErr then ⟨f, false, some "parse error"⟩
    else
      let r := rewriteAnchors zkRelativeFromPath zkRelativeToPath f.anchors
      if r.2 then
        if f.serializeErr then ⟨f, false, some "serialize error"⟩
        else if f.writeErr then ⟨f, true, none⟩
        else ⟨{ f with anchors := r.1 }, true, none⟩
      else ⟨f, false, none⟩
  else ⟨f, false, none⟩

/-- The `filepath.WalkDir` callback itself (`main.go` lines 144-146) as
invoked by the walk: `dirEntry` is `none` when `WalkDir` passes a nil
entry (as it does when the root itself cannot be read).  The callback's
first action is `dirEntry.Name()`, so a `none` entry is a nil-pointer
dereference, modelled as `none`; the `err` argument is never examined
anywhere in the body. -/
def mvWalkFn (zkRelativeFromPath zkRelativeToPath : String)
    (dirEntry : Option File) (err : Option String) : Option ProcResult :=
  match dirEntry with
  | none => none
  | some f => some (processFile zkRelativeFromPath zkRelativeToPath f)

/-- Models `filepath.WalkDir` over the project's files in walk order, with Go's
error semantics: a non-nil error returned by the callback stops the
entire walk and becomes its result, leaving the remaining files
unvisited.  Returns the file states, whether any write was performed,
and the walk's overall error value. -/
def walkRewrite (zkRelativeFromPath zkRelativeToPath : String) :
    List File → List File × Bool × Option String
  | [] => ([], false, none)
  | f :: fs =>
    let r := processFile zkRelativeFromPath zkRelativeToPath f
    match r.walkErr with
    | some e => (r.file :: fs, r.wrote, some e)
    | none =>
      let rest := walkRewrite zkRelativeFromPath zkRelativeToPath fs
      (r.file :: rest.1, r.wrote || rest.2.1, rest.2.2)

/-- A project state: the set of paths that exist on the filesystem
(directories, the marker file, documents) and the HTML documents in
walk order. -/
structure Zettelkasten where
  entries : List String
  docs : List File
deriving DecidableEq, Repr

/-- Models `os.Stat` existence over a project state. -/
def statB (zk : Zettelkasten) (p : String) : Bool := zk.entries.contains p

/-- Models `os.Rename(absFromPath, absToPath)` from `main.go` line 178: the
entry is renamed and a document stored at the old path keeps its content
under the new path. -/
def applyRename (absFromPath absToPath : String) (zk : Zettelkasten) :
    Zettelkasten :=
  ⟨zk.entries.map (fun p => if p = absFromPath then absToPath else p),
   zk.docs.map (fun f =>
     if f.name = absFromPath then { f with name := absToPath } else f)⟩

/-- Failure outcomes of the `mv` subcommand (each is `os.Exit(1)` after a
printed diagnostic in `main.go`). -/
inductive MvError where
  | rootNotFound
  | sourceNotFound
deriving DecidableEq, Repr

/-- Result of the `mv` subcommand. -/
inductive MvResult where
  | ok (zk : Zettelkasten)
  | error (e : MvError)
deriving DecidableEq, Repr

/-- The `mv` subcommand body from `main.go` lines 116-182: resolve the
root from the working directory, join the argument paths, compute the
relative paths by raw slicing, trim a `/index.html` suffix from the
destination, fail if the source does not exist, walk the tree rewriting
references — the walk's returned error is never inspected (line 177's
result is discarded) — and finally rename the source to the
destination. -/
def mvCommand (workingDir fromPath toPath : String) (zk : Zettelkasten) :
    MvResult :=
  match ZkRoot (statB zk) workingDir with
  | .error _ => .error .rootNotFound
  | .ok zkRootDirectory =>
    let absFromPath := filepathJoin workingDir fromPath
    let absToPath := filepathJoin workingDir toPath
    let zkRelativeFromPath := zkRelative zkRootDirectory absFromPath
    let zkRelativeToPath :=
      strTrimSuffix (zkRelative zkRootDirectory absToPath) "/index.html"
    if statB zk absFromPath = false then .error .sourceNotFound
    else
      let walked := walkRewrite zkRelativeFromPath zkRelativeToPath zk.docs
      .ok (applyRename absFromPath absToPath ⟨zk.entries, walked.1⟩)

/-- Scenario A project (spec §8): root `/proj` with the marker, the index
document holding an anchor `href="notes/a.html"` written without a
leading separator, and the note to be moved. -/
def zkScenarioA : Zettelkasten :=
  ⟨["/proj", "/proj/.zk-root", "/proj/index.html", "/proj/notes",
    "/proj/notes/a.html", "/proj/archive"],
   [⟨"/proj/index.html", false, false, false, false, [some "notes/a.html"]⟩,
    ⟨"/proj/notes/a.html", false, false, false, false, []⟩]⟩

/-- Scenario A project with the anchor href written the way the code's
relative forms are actually produced: with the separator that follows
the root prefix retained, `href="/notes/a.html"`. -/
def zkScenarioA' : Zettelkasten :=
  ⟨["/proj", "/proj/.zk-root", "/proj/index.html", "/proj/notes",
    "/proj/notes/a.html", "/proj/archive"],
   [⟨"/proj/index.html", false, false, false, false, [some "/notes/a.html"]⟩,
    ⟨"/proj/notes/a.html", false, false, false, false, []⟩]⟩

/-- A filesystem carrying the marker file only at the filesystem root
`/` itself. -/
def fsMarkerAtRoot : String → Bool := fun p => p == "/.zk-root"

/-- One error-free document whose only anchor is the exact relative form
of `/proj/notes/index.html`. -/
def fileC9 : File :=
  ⟨"/proj/index.html", false, false, false, false,
   [some "/notes/index.html"]⟩

/-- A document whose only anchor already holds the directory-style form
`/notes` that the source's directory-index form also takes. -/
def fileC7 : File :=
  ⟨"/proj/index.html", false, false, false, false, [some "/notes"]⟩

/-- A document that cannot be opened. -/
def fileOpenErr : File :=
  ⟨"/proj/broken.html", true, false, false, false, []⟩

/-- An error-free document holding the exact relative form of
`/proj/notes/a.html`. -/
def fileGood : File :=
  ⟨"/proj/other.html", false, false, false, false, [some "/notes/a.html"]⟩

/-- A project whose walk hits an open error on its only document, used
to show the rename still proceeds. -/
def zkWalkErr : Zettelkasten :=
  ⟨["/proj", "/proj/.zk-root", "/proj/broken.html", "/proj/notes",
    "/proj/notes/a.html"],
   [fileOpenErr]⟩

/-- A project used for the missing-source witness: the root marker is
present but the requested source file is not. -/
def zkNoSource : Zettelkasten :=
  ⟨["/proj", "/proj/.zk-root"], []⟩

theorem strTake_length (s : String) (n : Nat) :
    (strTake s n).length = min n s.length := by
  show (s.data.take n).length = min n s.data.length
  simp [List.length_take]

theorem ZkRoot_found (fs : String → Bool) (p : String)
    (hm : fs (filepathJoin p ZK_ROOT_FILENAME) = true) :
    ZkRoot fs p = .ok p := by
  rw [ZkRoot]
  rw [hm]
  simp

theorem ZkRoot_step (fs : String → Bool) (p : String)
    (hm : fs (filepathJoin p ZK_ROOT_FILENAME) = false)
    (hr : IsRootDir p = false) (i : Nat)
    (hi : lastSlashIdx p.data = some i) :
    ZkRoot fs p = ZkRoot fs (strTake p i) := by
  rw [ZkRoot]
  rw [hm]
  simp only [hr, Bool.false_eq_true, if_false, if_true]
  split
  · simp_all
  · rename_i j hj
    rw [hi] at hj
    cases hj
    rfl

theorem ZkRoot_atFsRoot (fs : String → Bool) (p : String)
    (hm : fs (filepathJoin p ZK_ROOT_FILENAME) = false)
    (hr : IsRootDir p = true) :
    ZkRoot fs p = .error ".zk-root cannot be found" := by
  rw [ZkRoot]
  rw [hm]
  simp [hr]

theorem ZkRoot_nosep (fs : String → Bool) (p : String)
    (hm : fs (filepathJoin p ZK_ROOT_FILENAME) = false)
    (hr : IsRootDir p = false)
    (hi : lastSlashIdx p.data = none) :
    ZkRoot fs p = .error ".zk-root cannot be found" := by
  rw [ZkRoot]
  rw [hm]
  simp only [hr, Bool.false_eq_true, if_false, if_true]
  split
  · rfl
  · rename_i j hj
    rw [hi] at hj
    cases hj

theorem rewriteAnchors_fst (rf t : String) (as : List (Option String)) :
    (rewriteAnchors rf t as).1 =
      as.map (fun a => if anchorMatches rf a then some t else a) := by
  induction as with
  | nil => rfl
  | cons a rest ih =>
    simp only [rewriteAnchors, List.map_cons]
    by_cases hm : anchorMatches rf a
    · simp [hm, ih]
    · simp [hm, ih]

theorem rewriteAnchors_snd (rf t : String) (as : List (Option String)) :
    (rewriteAnchors rf t as).2 = as.any (anchorMatches rf) := by
  induction as with
  | nil => rfl
  | cons a rest ih =>
    simp only [rewriteAnchors, List.any_cons]
    by_cases hm : anchorMatches rf a
    · simp [hm]
    · simp [hm, ih]

theorem rewriteAnchors_no_rematch (rf t : String)
    (hfresh : anchorMatches rf (some t) = false)
    (as : List (Option String)) :
    ((rewriteAnchors rf t as).1).any (anchorMatches rf) = false := by
  rw [rewriteAnchors_fst, List.any_map, List.any_eq_false]
  intro a _
  by_cases hm : anchorMatches rf a
  · simp [Function.comp, hm, hfresh]
  · simp only [Function.comp, hm, if_false]
    simpa using hm

theorem processFile_clean_twice (rf t : String) (f : File)
    (hfresh : anchorMatches rf (some t) = false)
    (ho : f.openErr = false) (hp : f.parseErr = false)
    (hs : f.serializeErr = false) (hw : f.writeErr = false) :
    (processFile rf t f).walkErr = none
    ∧ processFile rf t ((processFile rf t f).file) =
        ⟨(processFile rf t f).file, false, none⟩ := by
  by_cases h1 : strHasSuffix f.name ".html" = true
  · by_cases hm : (rewriteAnchors rf t f.anchors).2 = true
    · have hstep : processFile rf t f =
          ⟨{ f with anchors := (rewriteAnchors rf t f.anchors).1 }, true, none⟩ := by
        simp [processFile, h1, ho, hp, hs, hw, hm]
      rw [hstep]
      refine ⟨rfl, ?_⟩
      have hagain : (rewriteAnchors rf t
          ((rewriteAnchors rf t f.anchors).1)).2 = false := by
        rw [rewriteAnchors_snd]
        exact rewriteAnchors_no_rematch rf t hfresh f.anchors
      simp [processFile, h1, ho, hp, hagain]
    · simp only [Bool.not_eq_true] at hm
      have hstep : processFile rf t f = ⟨f, false, none⟩ := by
        simp [processFile, h1, ho, hp, hm]
      rw [hstep]
      exact ⟨rfl, hstep⟩
  · simp only [Bool.not_eq_true] at h1
    have hstep : processFile rf t f = ⟨f, false, none⟩ := by
      simp [processFile, h1]
    rw [hstep]
    exact ⟨rfl, hstep⟩

/-- Claim C2: `ZkRoot` is documented (`main.go` lines 45-48) to return the
nearest superdirectory carrying `.zk-root` and to fail only when no
superdirectory carries it; but when the marker sits only at the
filesystem root `/`, resolution from the deeper directory `/a` fails:
the recursion slices `/a` down to the empty string, skipping `/`
entirely, and hits the code's own "failsafe" error branch — while
starting directly at `/` does find the marker. -/
theorem zkRoot_marker_at_fs_root_not_found :
    fsMarkerAtRoot "/.zk-root" = true
    ∧ ZkRoot fsMarkerAtRoot "/" = .ok "/"
    ∧ ZkRoot fsMarkerAtRoot "/a" = .error ".zk-root cannot be found" := by
  refine ⟨by decide, ZkRoot_found _ _ (by decide), ?_⟩
  rw [ZkRoot_step _ _ (by decide) (by decide) 0 (by decide)]
  rw [show strTake "/a" 0 = "" by decide]
  exact ZkRoot_nosep _ _ (by decide) (by decide) (by decide)

/-- Claim C3 counterexample: an anchor holding the extension-less form of
the moved page is not rewritten to the extension-less form of the
destination; it receives the full `zkRelativeToPath` literal
`/archive/a.html`, not `/archive/a`. -/
theorem extensionless_match_not_rewritten_to_extensionless :
    rewriteAnchors "/notes/a.html" "/archive/a.html" [some "/notes/a"] =
      ([some "/archive/a.html"], true)
    ∧ (some "/archive/a.html" : Option String) ≠ some "/archive/a" := by
  decide

/-- Claim C3 (amended): every matched anchor, whichever of the link forms
it matched, is set to the one literal destination string
`zkRelativeToPath`; with source `/notes/a.html` and destination
`/archive/a.html`, both the extension-less href `/notes/a` and the exact
href `/notes/a.html` become the same string `/archive/a.html`. -/
theorem matched_forms_single_literal_destination :
    (∀ rf t as, (rewriteAnchors rf t as).1 =
      as.map (fun a => if anchorMatches rf a then some t else a))
    ∧ rewriteAnchors "/notes/a.html" "/archive/a.html"
        [some "/notes/a", some "/notes/a.html"] =
      ([some "/archive/a.html", some "/archive/a.html"], true) :=
  ⟨rewriteAnchors_fst, by decide⟩

/-- Claim C6 counterexample: the relative-path computation of `main.go`
line 136 performs no containment check: for the non-descendant
`/quux/a.html` of root `/proj` it silently returns the wrong relative
path `/a.html` instead of failing. -/
theorem zkRelative_outside_root_wrong_path :
    zkRelative "/proj" "/quux/a.html" = "/a.html"
    ∧ ("/proj/".data.isPrefixOf "/quux/a.html".data) = false
    ∧ "/proj" ++ zkRelative "/proj" "/quux/a.html" ≠ "/quux/a.html" := by
  decide

/-- Claim C6 (amended): `zkRelative` strips exactly `root.length` leading
characters with no error path; the result is a correct relative path
(reassembling to the original) precisely when the root is a literal
string prefix of the absolute path, and is silently wrong otherwise.
The hypothesis restricts to paths no shorter than the root, where the Go
slice expression does not panic. -/
theorem zkRelative_reconstructs_iff_root_literal_prefix (root p : String)
    (h : root.length ≤ p.length) :
    root ++ zkRelative root p = p ↔ root.data.isPrefixOf p.data = true := by
  clear h
  cases root with
  | mk rd =>
    cases p with
    | mk pd =>
      show String.mk (rd ++ pd.drop rd.length) = ⟨pd⟩ ↔ _
      rw [String.ext_iff]
      rw [show (String.mk rd).data = rd from rfl, List.isPrefixOf_iff_prefix]
      constructor
      · intro he
        exact ⟨pd.drop rd.length, he⟩
      · rintro ⟨tl, rfl⟩
        rw [List.drop_left]

/-- Witness for `zkRelative_reconstructs_iff_root_literal_prefix` at a
concrete root and descendant path. -/
theorem zkRelative_reconstructs_iff_root_literal_prefix_witness :
    ("/proj".length ≤ "/proj/notes/a.html".length)
    ∧ ("/proj" ++ zkRelative "/proj" "/proj/notes/a.html" = "/proj/notes/a.html"
        ↔ "/proj".data.isPrefixOf "/proj/notes/a.html".data = true) :=
  ⟨by decide,
   zkRelative_reconstructs_iff_root_literal_prefix "/proj" "/proj/notes/a.html"
     (by decide)⟩

/-- Claim C7 counterexample: an anchor that matches the directory-index
form while already holding the destination string is "rewritten" to the
identical value, yet `foundReference` becomes true and the file is
written back, contradicting that dirty requires an actual change.  The
source and destination forms here are those of
`zk mv notes/index.html notes/index.html` run at root `/proj`. -/
theorem match_without_change_marks_dirty :
    processFile "/notes/index.html" "/notes" fileC7 = ⟨fileC7, true, none⟩
    ∧ (rewriteAnchors "/notes/index.html" "/notes" fileC7.anchors).1 =
        fileC7.anchors
    ∧ strTrimSuffix (zkRelative "/proj" "/proj/notes/index.html")
        "/index.html" = "/notes" := by
  decide

/-- Claim C7 (amended): `foundReference` (and hence the write-back)
tracks whether some anchor MATCHES a source link form, not whether any
href value actually changes; for a readable, parsable, serializable
document the file is written back exactly when some anchor matches. -/
theorem dirty_iff_anchor_match (rf t : String) (f : File)
    (hname : strHasSuffix f.name ".html" = true)
    (ho : f.openErr = false) (hp : f.parseErr = false)
    (hs : f.serializeErr = false) :
    (rewriteAnchors rf t f.anchors).2 = f.anchors.any (anchorMatches rf)
    ∧ (processFile rf t f).wrote = f.anchors.any (anchorMatches rf) := by
  refine ⟨rewriteAnchors_snd rf t f.anchors, ?_⟩
  by_cases hm : (rewriteAnchors rf t f.anchors).2 = true
  · rw [← rewriteAnchors_snd rf t f.anchors, hm]
    by_cases hw : f.writeErr = true
    · simp [processFile, hname, ho, hp, hs, hm, hw]
    · simp only [Bool.not_eq_true] at hw
      simp [processFile, hname, ho, hp, hs, hm, hw]
  · simp only [Bool.not_eq_true] at hm
    rw [← rewriteAnchors_snd rf t f.anchors, hm]
    simp [processFile, hname, ho, hp, hs, hm]

/-- Witness for `dirty_iff_anchor_match` on a concrete document whose
single anchor already equals the destination form. -/
theorem dirty_iff_anchor_match_witness :
    (strHasSuffix fileC7.name ".html" = true ∧ fileC7.openErr = false
      ∧ fileC7.parseErr = false ∧ fileC7.serializeErr = false)
    ∧ ((rewriteAnchors "/notes/index.html" "/notes" fileC7.anchors).2 =
        fileC7.anchors.any (anchorMatches "/notes/index.html")
      ∧ (processFile "/notes/index.html" "/notes" fileC7).wrote =
        fileC7.anchors.any (anchorMatches "/notes/index.html")) :=
  ⟨by decide,
   dirty_iff_anchor_match "/notes/index.html" "/notes" fileC7
     (by decide) (by decide) (by decide) (by decide)⟩

/-- Claim C8: a document none of whose anchors' hrefs equals any source
link form (the match condition of lines 158-161) is left untouched by
the walk callback: same file state, no `WriteFile` call, and
`foundReference` stays false. -/
theorem no_match_leaves_file_untouched (rf t : String) (f : File)
    (h : ∀ a ∈ f.anchors, anchorMatches rf a = false) :
    (processFile rf t f).file = f ∧ (processFile rf t f).wrote = false
    ∧ (rewriteAnchors rf t f.anchors).2 = false := by
  have hany : f.anchors.any (anchorMatches rf) = false := by
    rw [List.any_eq_false]
    intro a ha
    simp [h a ha]
  have hsnd : (rewriteAnchors rf t f.anchors).2 = false :=
    (rewriteAnchors_snd rf t f.anchors).trans hany
  refine ⟨?_, ?_, hsnd⟩ <;>
  · by_cases h1 : strHasSuffix f.name ".html" = true
    · by_cases h2 : f.openErr = true
      · simp [processFile, h1, h2]
      · simp only [Bool.not_eq_true] at h2
        by_cases h3 : f.parseErr = true
        · simp [processFile, h1, h2, h3]
        · simp only [Bool.not_eq_true] at h3
          simp [processFile, h1, h2, h3, hsnd]
    · simp only [Bool.not_eq_true] at h1
      simp [processFile, h1]

/-- Witness for `no_match_leaves_file_untouched`: the document holding
only `/notes/a.html` is untouched by a move of `/zzz.html`. -/
theorem no_match_leaves_file_untouched_witness :
    (∀ a ∈ fileGood.anchors, anchorMatches "/zzz.html" a = false)
    ∧ ((processFile "/zzz.html" "/y.html" fileGood).file = fileGood
      ∧ (processFile "/zzz.html" "/y.html" fileGood).wrote = false
      ∧ (rewriteAnchors "/zzz.html" "/y.html" fileGood.anchors).2 = false) :=
  ⟨by decide,
   no_match_leaves_file_untouched "/zzz.html" "/y.html" fileGood (by decide)⟩

/-- Claim C10: the walk callback of `main.go` lines 144-146 reads
`dirEntry.Name()` before ever looking at its `err` argument: on a nil
directory entry it crashes (modelled by `none`) whatever `err` is, and
on a non-nil entry its behaviour is identical for every value of `err`,
which is never examined. -/
theorem walk_callback_nil_entry_crashes_err_unread :
    (∀ rf t e, mvWalkFn rf t none e = none)
    ∧ ∀ rf t f e1 e2, mvWalkFn rf t (some f) e1 = mvWalkFn rf t (some f) e2 :=
  ⟨fun _ _ _ => rfl, fun _ _ _ _ _ => rfl⟩

/-- Claim C1 counterexample: in Scenario A the anchor is written exactly
`href="notes/a.html"`; the move renames the file but leaves that href
unchanged, because the relative form computed by `absPath[len(root):]`
keeps the separator after the root prefix (`/notes/a.html`) and so never
equals `notes/a.html`. -/
theorem scenarioA_anchor_left_unrewritten :
    mvCommand "/proj" "notes/a.html" "archive/a.html" zkScenarioA =
      .ok ⟨["/proj", "/proj/.zk-root", "/proj/index.html", "/proj/notes",
            "/proj/archive/a.html", "/proj/archive"],
           [⟨"/proj/index.html", false, false, false, false,
             [some "notes/a.html"]⟩,
            ⟨"/proj/archive/a.html", false, false, false, false, []⟩]⟩
    ∧ (some "notes/a.html" : Option String) ≠ some "archive/a.html" := by
  have hroot : ZkRoot (statB zkScenarioA) "/proj" = .ok "/proj" :=
    ZkRoot_found _ _ (by decide)
  refine ⟨?_, by decide⟩
  simp only [mvCommand, hroot]
  decide

/-- Claim C1 (amended): the relative forms retain the separator that
follows the root prefix, so the Scenario A move rewrites an anchor
written `href="/notes/a.html"` to `/archive/a.html`, removes
`/proj/notes/a.html` and creates `/proj/archive/a.html` with the
original content. -/
theorem scenarioA_with_separator_forms :
    mvCommand "/proj" "notes/a.html" "archive/a.html" zkScenarioA' =
      .ok ⟨["/proj", "/proj/.zk-root", "/proj/index.html", "/proj/notes",
            "/proj/archive/a.html", "/proj/archive"],
           [⟨"/proj/index.html", false, false, false, false,
             [some "/archive/a.html"]⟩,
            ⟨"/proj/archive/a.html", false, false, false, false, []⟩]⟩
    ∧ zkRelative "/proj" (filepathJoin "/proj" "notes/a.html") =
        "/notes/a.html" := by
  have hroot : ZkRoot (statB zkScenarioA') "/proj" = .ok "/proj" :=
    ZkRoot_found _ _ (by decide)
  refine ⟨?_, by decide⟩
  simp only [mvCommand, hroot]
  decide

/-- Claim C4: when the root resolves but the joined source path does not
exist, the `mv` command fails with the source-not-found diagnostic
(`main.go` lines 139-143) before the walk and the rename: no rewriting
and no filesystem mutation happens (the command produces no successor
state). -/
theorem mv_missing_source_fails (wd fp tp : String) (zk : Zettelkasten)
    (root : String)
    (hroot : ZkRoot (statB zk) wd = .ok root)
    (hstat : statB zk (filepathJoin wd fp) = false) :
    mvCommand wd fp tp zk = .error .sourceNotFound := by
  simp only [mvCommand, hroot]
  simp [hstat]

/-- Witness for `mv_missing_source_fails` on a project that has a marker
but not the requested source file. -/
theorem mv_missing_source_fails_witness :
    mvCommand "/proj" "nope.html" "x.html" zkNoSource =
      .error .sourceNotFound :=
  mv_missing_source_fails "/proj" "nope.html" "x.html" zkNoSource "/proj"
    (ZkRoot_found _ _ (by decide)) (by decide)

/-- Claim C5 counterexample: an open error on the first document makes
the callback return that error, which stops `filepath.WalkDir`
entirely: the second document, whose anchor does match a source form,
is left unprocessed. -/
theorem open_error_aborts_walk :
    walkRewrite "/notes/a.html" "/archive/a.html" [fileOpenErr, fileGood] =
      ([fileOpenErr, fileGood], false, some "open error")
    ∧ (rewriteAnchors "/notes/a.html" "/archive/a.html" fileGood.anchors).2 =
        true := by
  decide

/-- Claim C5 (amended): an open (or parse, or serialize) error returned
by the callback aborts the walk over all remaining documents; a
`WriteFile` error alone is discarded and the walk continues; and the
walk's overall error value is never inspected — the command always
proceeds to the rename, whose result is the same whatever that error
was. -/
theorem walk_error_policy :
    (∀ rf t f rest, strHasSuffix f.name ".html" = true → f.openErr = true →
      walkRewrite rf t (f :: rest) = (f :: rest, false, some "open error"))
    ∧ (∀ rf t f, f.openErr = false → f.parseErr = false →
        f.serializeErr = false → (processFile rf t f).walkErr = none)
    ∧ (∀ wd fp tp zk root, ZkRoot (statB zk) wd = .ok root →
        statB zk (filepathJoin wd fp) = true →
        mvCommand wd fp tp zk = .ok (applyRename (filepathJoin wd fp)
          (filepathJoin wd tp)
          ⟨zk.entries, (walkRewrite
            (zkRelative root (filepathJoin wd fp))
            (strTrimSuffix (zkRelative root (filepathJoin wd tp))
              "/index.html")
            zk.docs).1⟩)) := by
  refine ⟨?_, ?_, ?_⟩
  · intro rf t f rest hname ho
    simp [walkRewrite, processFile, hname, ho]
  · intro rf t f ho hp hs
    by_cases h1 : strHasSuffix f.name ".html" = true
    · by_cases hm : (rewriteAnchors rf t f.anchors).2 = true
      · by_cases hw : f.writeErr = true
        · simp [processFile, h1, ho, hp, hs, hm, hw]
        · simp only [Bool.not_eq_true] at hw
          simp [processFile, h1, ho, hp, hs, hm, hw]
      · simp only [Bool.not_eq_true] at hm
        simp [processFile, h1, ho, hp, hm]
    · simp only [Bool.not_eq_true] at h1
      simp [processFile, h1]
  · intro wd fp tp zk root hroot hstat
    simp only [mvCommand, hroot]
    simp [hstat]

/-- Witness for `walk_error_policy`: on a project whose only document
fails to open, the walk errors, yet the command completes with the
rename applied. -/
theorem walk_error_policy_witness :
    mvCommand "/proj" "notes/a.html" "archive/a.html" zkWalkErr =
      .ok (applyRename (filepathJoin "/proj" "notes/a.html")
        (filepathJoin "/proj" "archive/a.html")
        ⟨zkWalkErr.entries, (walkRewrite
          (zkRelative "/proj" (filepathJoin "/proj" "notes/a.html"))
          (strTrimSuffix (zkRelative "/proj"
            (filepathJoin "/proj" "archive/a.html")) "/index.html")
          zkWalkErr.docs).1⟩) :=
  walk_error_policy.2.2 "/proj" "notes/a.html" "archive/a.html" zkWalkErr
    "/proj" (ZkRoot_found _ _ (by decide)) (by decide)

/-- Claim C9 counterexample: for the genuine move
`zk mv notes/index.html notes/index.html` at root `/proj` the canonical
destination string `/notes` is itself one of the source's link forms
(the directory-index form), so the second rewrite pass matches again:
it marks the document dirty and writes it a second time. -/
theorem second_pass_rewrites_again :
    walkRewrite "/notes/index.html" "/notes"
        (walkRewrite "/notes/index.html" "/notes" [fileC9]).1 =
      ([⟨"/proj/index.html", false, false, false, false, [some "/notes"]⟩],
       true, none)
    ∧ strTrimSuffix (zkRelative "/proj" "/proj/notes/index.html")
        "/index.html" = "/notes" := by
  decide

/-- Claim C9 (amended): when the canonical destination string is not
itself one of the source's link forms and every document is free of
open/parse/serialize/write errors, a second run of the rewrite pass
over the first run's output changes no file, performs no write and
returns no error. -/
theorem rewrite_pass_idempotent (rf t : String) (files : List File)
    (hfresh : anchorMatches rf (some t) = false)
    (hclean : ∀ f ∈ files, f.openErr = false ∧ f.parseErr = false ∧
        f.serializeErr = false ∧ f.writeErr = false) :
    walkRewrite rf t (walkRewrite rf t files).1 =
      ((walkRewrite rf t files).1, false, none) := by
  induction files with
  | nil => rfl
  | cons f fs ih =>
    have hf := hclean f (by simp)
    have hrest := fun g hg => hclean g (List.mem_cons_of_mem f hg)
    obtain ⟨h1, h2⟩ :=
      processFile_clean_twice rf t f hfresh hf.1 hf.2.1 hf.2.2.1 hf.2.2.2
    have hfirst : walkRewrite rf t (f :: fs) =
        ((processFile rf t f).file :: (walkRewrite rf t fs).1,
         (processFile rf t f).wrote || (walkRewrite rf t fs).2.1,
         (walkRewrite rf t fs).2.2) := by
      simp only [walkRewrite]
      rw [h1]
    rw [hfirst]
    simp only [walkRewrite]
    rw [h2]
    simp only []
    rw [ih hrest]
    simp

/-- Witness for `rewrite_pass_idempotent` on a one-document tree whose
anchor holds the exact source form. -/
theorem rewrite_pass_idempotent_witness :
    (anchorMatches "/notes/a.html" (some "/archive/a.html") = false)
    ∧ walkRewrite "/notes/a.html" "/archive/a.html"
        (walkRewrite "/notes/a.html" "/archive/a.html" [fileGood]).1 =
      ((walkRewrite "/notes/a.html" "/archive/a.html" [fileGood]).1,
       false, none) :=
  ⟨by decide,
   rewrite_pass_idempotent "/notes/a.html" "/archive/a.html" [fileGood]
     (by decide) (by decide)⟩

end Zk
